import Mathlib

/-!
# Verification of the order-service core (E-Commerce-Microservices)

Shallow embedding of `src/order-service/app/main.py`, `models.py` and
`schemas.py`.  Money amounts (JSON numbers in the Python code) are modelled
as exact rationals; Python's `round(x, 2)` is modelled by `round2` below
(the tie-breaking convention never matters for the claims proved here,
since no rounding tie arises in any statement or witness).  The Redis
cache is modelled as a partial map from owner id to a cached snapshot with
an absolute expiry instant; `setex key 300 v` stores expiry `now + 300`.
The SQL store is modelled as a list of `Order` rows; `filter_by(...).first()`
is `List.find?`, and mutating the found row is `updateFirst`.
-/

namespace OrderService

/-- Python `round(q, 2)`: round to 2 decimal places. -/
def round2 (q : ℚ) : ℚ := (round (100 * q) : ℤ) / 100

/-- The rational `q` is a whole number of cents (a multiple of 1/100). -/
def isCents (q : ℚ) : Prop := (100 * q).den = 1

instance (q : ℚ) : Decidable (isCents q) :=
  inferInstanceAs (Decidable ((100 * q).den = 1))

/-- A priced line item as stored inside an order
(`products_with_details` entries in `create_order`). -/
structure LineItem where
  product_id : Int
  name : String
  price : ℚ
  quantity : Int
  subtotal : ℚ
deriving DecidableEq, Repr

/-- The `Order` row of `models.py` (timestamps omitted: no claim mentions
them).  `status` is stored as a string, exactly as in the database column. -/
structure Order where
  id : Nat
  user_id : Int
  products : List LineItem
  total_amount : ℚ
  status : String
deriving DecidableEq, Repr

/-- Body of a successful product-service reply
(`response.json()['product']`). -/
structure ProductInfo where
  name : String
  price : ℚ
  stock : Int
deriving DecidableEq, Repr

/-- Outcome of `requests.get(f"{PRODUCT_SERVICE_URL}/api/products/{id}")`:
either an HTTP reply with a status code (body inspected only when the code
is 200), or a raised `requests.RequestException` (timeout, connection
refused, malformed body). -/
inductive CatalogResult where
  | resp (status_code : Nat) (product : ProductInfo)
  | exn
deriving DecidableEq, Repr

/-- A raw JSON `quantity` field: `isInt` records whether the value is a
Python `int`; `val` is its integer value when it is one (arbitrary
otherwise, and never inspected on reachable paths when it is not). -/
structure RawQty where
  isInt : Bool
  val : Int
deriving DecidableEq, Repr

/-- One entry of the raw `products` list of a request body. -/
structure RawItem where
  product_id : Option Int
  quantity : Option RawQty
deriving DecidableEq, Repr

/-- The raw `products` field: absent, present but not a list, or a list. -/
inductive RawProducts where
  | missing
  | notList
  | plist (items : List RawItem)
deriving DecidableEq, Repr

/-- The raw `user_id` field: absent, or present with a flag telling
whether `int(value)` succeeds and the resulting integer when it does. -/
inductive RawUser where
  | missing
  | given (intable : Bool) (val : Int)
deriving DecidableEq, Repr

/-- A raw order-creation request body. -/
structure RawOrder where
  user_id : RawUser
  products : RawProducts
deriving DecidableEq, Repr

/-- The stats payload built by `get_order_stats`. -/
structure Stats where
  total_orders : Nat
  total_spent : ℚ
  pending_orders : Nat
  completed_orders : Nat
deriving DecidableEq, Repr

/-- A cached stats entry: the snapshot plus its absolute expiry instant. -/
structure CacheEntry where
  stats : Stats
  expiry : Nat
deriving DecidableEq, Repr

/-- The order service's persistent state: the `orders` table, the Redis
keys `order:stats:{uid}` (as a map from owner id), and the next
store-assigned order id. -/
structure ServiceState where
  orders : List Order
  cache : Int → Option CacheEntry
  nextId : Nat

/-! ## `schemas.py`: `validate_order` -/

/-- Errors contributed by the `user_id` checks of `validate_order`. -/
def userErrors : RawUser → List String
  | .missing => ["User ID is required"]
  | .given intable _ =>
      if intable then [] else ["User ID must be a valid integer"]

/-- Errors contributed by one `products[idx]` entry. -/
def itemErrors (idx : Nat) (p : RawItem) : List String :=
  (if p.product_id.isNone then [s!"Product {idx}: product_id is required"]
   else []) ++
  (match p.quantity with
   | none => [s!"Product {idx}: quantity is required"]
   | some q =>
       if !q.isInt || q.val ≤ 0 then
         [s!"Product {idx}: quantity must be a positive integer"]
       else [])

/-- The `for idx, product in enumerate(data['products'])` loop, starting
at index `idx`. -/
def itemsErrors (idx : Nat) : List RawItem → List String
  | [] => []
  | p :: rest => itemErrors idx p ++ itemsErrors (idx + 1) rest

/-- Errors contributed by the `products` checks of `validate_order`. -/
def productsErrors : RawProducts → List String
  | .missing => ["Products are required"]
  | .notList => ["Products must be a non-empty list"]
  | .plist [] => ["Products must be a non-empty list"]
  | .plist (p :: rest) => itemsErrors 0 (p :: rest)

/-- Embedding of `validate_order` from `schemas.py`: collects every violation, in
order, without stopping at the first. -/
def validate_order (d : RawOrder) : List String :=
  userErrors d.user_id ++ productsErrors d.products

/-! ## `main.py`: order creation -/

/-- Per-item failure modes of the product-lookup loop in `create_order`.
`keyError` stands for a Python `KeyError` on a missing field (unreachable
once validation has passed). -/
inductive ItemError where
  | notFound (pid : Int)
  | insufficientStock (pid : Int)
  | unavailable
  | keyError
deriving DecidableEq, Repr

/-- The error, if any, that the loop body of `create_order` raises for a
single item: a `RequestException` → 503 unavailable; a reply whose status
code is not 200 → 404 not found; a 200 reply with `stock < quantity` →
400 insufficient stock. -/
def itemCheck (catalog : Int → CatalogResult) :
    RawItem → Option ItemError
  | ⟨none, _⟩ => some .keyError
  | ⟨some _, none⟩ => some .keyError
  | ⟨some pid, some q⟩ =>
      match catalog pid with
      | .exn => some .unavailable
      | .resp code p =>
          if code ≠ 200 then some (.notFound pid)
          else if p.stock < q.val then some (.insufficientStock pid)
          else none

/-- The `for item in data['products']` loop of `create_order`: walks the
items in request order, aborting on the first failure, otherwise
accumulating the priced line-item list and the running total. -/
def processItems (catalog : Int → CatalogResult) :
    List RawItem → Except ItemError (List LineItem × ℚ)
  | [] => .ok ([], 0)
  | ⟨none, _⟩ :: _ => .error .keyError
  | ⟨some _, none⟩ :: _ => .error .keyError
  | ⟨some pid, some q⟩ :: rest =>
      match catalog pid with
      | .exn => .error .unavailable
      | .resp code p =>
          if code ≠ 200 then .error (.notFound pid)
          else if p.stock < q.val then .error (.insufficientStock pid)
          else
            match processItems catalog rest with
            | .error e => .error e
            | .ok (ls, t) =>
                .ok ({ product_id := pid, name := p.name,
                       price := p.price, quantity := q.val,
                       subtotal := p.price * (q.val : ℚ) } :: ls,
                     p.price * (q.val : ℚ) + t)

/-- HTTP-level outcome of `POST /api/orders`. -/
inductive CreateResult where
  | validationError (errors : List String)
  | notFound (pid : Int)
  | insufficientStock (pid : Int)
  | unavailable
  | serverError
  | created (o : Order)
deriving DecidableEq, Repr

/-- Deletion of the Redis key `order:stats:{uid}`. -/
def invalidateOwner (uid : Int) (c : Int → Option CacheEntry) :
    Int → Option CacheEntry :=
  fun u => if u = uid then none else c u

/-- The tail of `create_order` after validation has passed: resolve and
price each item against the catalog (fail-fast), then persist the order
with rounded total and status `pending` and invalidate the owner's stats
cache key. -/
def createFromItems (catalog : Int → CatalogResult) (uid : Int)
    (st : ServiceState) (items : List RawItem) :
    CreateResult × ServiceState :=
  match processItems catalog items with
  | .error (.notFound pid) => (.notFound pid, st)
  | .error (.insufficientStock pid) => (.insufficientStock pid, st)
  | .error .unavailable => (.unavailable, st)
  | .error .keyError => (.serverError, st)
  | .ok (ls, total) =>
      let o : Order :=
        { id := st.nextId, user_id := uid, products := ls,
          total_amount := round2 total, status := "pending" }
      (.created o,
       { orders := st.orders ++ [o],
         cache := invalidateOwner uid st.cache,
         nextId := st.nextId + 1 })

/-- Embedding of `create_order` from `main.py`: overrides `user_id` with the
authenticated identity, validates, then proceeds per `createFromItems`. -/
def create_order (catalog : Int → CatalogResult) (uid : Int)
    (d : RawOrder) (st : ServiceState) : CreateResult × ServiceState :=
  let d' : RawOrder := { d with user_id := .given true uid }
  if validate_order d' = [] then
    match d'.products with
    | .plist items => createFromItems catalog uid st items
    | _ => (.serverError, st)
  else (.validationError (validate_order d'), st)

/-! ## `main.py`: read, status update, cancel -/

/-- Model of `Order.query.filter_by(id=order_id, user_id=current_user_id).first()`. -/
def findOrder (oid : Nat) (uid : Int) (orders : List Order) : Option Order :=
  orders.find? (fun o => o.id == oid && o.user_id == uid)

/-- Mutate the first row satisfying `p` (the ORM object returned by
`first()`), leaving the rest of the table unchanged. -/
def updateFirst (p : Order → Bool) (f : Order → Order) :
    List Order → List Order
  | [] => []
  | o :: rest => if p o then f o :: rest else o :: updateFirst p f rest

/-- Endpoint `GET /api/orders/<id>`: the order on success, `none` for the
404 `Order not found` reply. -/
def get_order (uid : Int) (oid : Nat) (st : ServiceState) : Option Order :=
  findOrder oid uid st.orders

/-- HTTP-level outcome of `PUT /api/orders/<id>/status`. -/
inductive UpdateResult where
  | notFound
  | statusRequired
  | invalidStatus
  | ok (o : Order)
deriving DecidableEq, Repr

/-- The `valid_statuses` list of `update_order_status`. -/
def valid_statuses : List String :=
  ["pending", "processing", "shipped", "delivered", "cancelled"]

/-- Embedding of `update_order_status` from `main.py`: 404 when no owned order matches,
400 when `status` is absent or outside `valid_statuses`; otherwise sets
the status unconditionally and invalidates the owner's stats cache key
exactly when the new status is `delivered` or `cancelled`. -/
def update_order_status (uid : Int) (oid : Nat) (newStatus : Option String)
    (st : ServiceState) : UpdateResult × ServiceState :=
  match findOrder oid uid st.orders with
  | none => (.notFound, st)
  | some order =>
    match newStatus with
    | none => (.statusRequired, st)
    | some s =>
        if s ∉ valid_statuses then (.invalidStatus, st)
        else
          (.ok { order with status := s },
           { orders := updateFirst
               (fun o => o.id == oid && o.user_id == uid)
               (fun o => { o with status := s }) st.orders,
             cache := if s ∈ (["delivered", "cancelled"] : List String)
                      then invalidateOwner uid st.cache else st.cache,
             nextId := st.nextId })

/-- HTTP-level outcome of `DELETE /api/orders/<id>`. -/
inductive CancelResult where
  | notFound
  | conflict
  | ok (o : Order)
deriving DecidableEq, Repr

/-- Embedding of `cancel_order` from `main.py`: 404 when no owned order matches, 400
`Cannot cancel order in current status` unless the current status is
`pending` or `processing`, otherwise sets `cancelled` and invalidates the
owner's stats cache key. -/
def cancel_order (uid : Int) (oid : Nat) (st : ServiceState) :
    CancelResult × ServiceState :=
  match findOrder oid uid st.orders with
  | none => (.notFound, st)
  | some order =>
    if order.status ∉ (["pending", "processing"] : List String) then
      (.conflict, st)
    else
      (.ok { order with status := "cancelled" },
       { orders := updateFirst
           (fun o => o.id == oid && o.user_id == uid)
           (fun o => { o with status := "cancelled" }) st.orders,
         cache := invalidateOwner uid st.cache,
         nextId := st.nextId })

/-! ## `main.py`: stats with cache-aside -/

/-- The aggregate queries of `get_order_stats`, as the code issues them:
count of the owner's orders, `round(float(sum), 2)` of their totals
(`or 0` on the empty sum), count with status `pending`, count with status
`delivered`. -/
def computeStats (uid : Int) (orders : List Order) : Stats :=
  let mine := orders.filter (fun o => o.user_id == uid)
  { total_orders := mine.length,
    total_spent := round2 (mine.map (fun o => o.total_amount)).sum,
    pending_orders := (mine.filter (fun o => o.status == "pending")).length,
    completed_orders :=
      (mine.filter (fun o => o.status == "delivered")).length }

/-- Model of the cache-hit test: `redis_client.get` returns nothing when the key is absent or its TTL
has elapsed. -/
def cacheMiss (now : Nat) (uid : Int) (st : ServiceState) : Prop :=
  match st.cache uid with
  | none => True
  | some e => e.expiry ≤ now

instance (now : Nat) (uid : Int) (st : ServiceState) :
    Decidable (cacheMiss now uid st) := by
  unfold cacheMiss; exact match st.cache uid with
  | none => .isTrue trivial
  | some e => inferInstanceAs (Decidable (e.expiry ≤ now))

/-- Embedding of `get_order_stats` from `main.py`: serve the cached snapshot on a hit;
on a miss recompute from the store and cache the result with
`setex(key, 300, ...)`. -/
def get_order_stats (now : Nat) (uid : Int) (st : ServiceState) :
    Stats × ServiceState :=
  match st.cache uid with
  | some e =>
    if now < e.expiry then (e.stats, st)
    else
      let s := computeStats uid st.orders
      (s, { st with cache := fun u =>
              if u = uid then some ⟨s, now + 300⟩ else st.cache u })
  | none =>
      let s := computeStats uid st.orders
      (s, { st with cache := fun u =>
              if u = uid then some ⟨s, now + 300⟩ else st.cache u })

/-! ## Spec-side comparison definitions (refinement targets) -/

/-- Following the spec's words (§4.2 Rules): an item is valid when it has
an identifier and a strictly positive integer quantity. -/
def specItemOk (p : RawItem) : Bool :=
  p.product_id.isSome &&
  (match p.quantity with
   | some q => q.isInt && decide (0 < q.val)
   | none => false)

/-- Following the spec's words (§4.2 Rules): the request is valid when
the owner id resolves to an integer, the item list is present and
non-empty, and every item is valid per `specItemOk`. -/
def specRequestValid (d : RawOrder) : Bool :=
  (match d.user_id with
   | .given true _ => true
   | _ => false) &&
  (match d.products with
   | .plist items => !items.isEmpty && items.all specItemOk
   | _ => false)

/-- Following the spec's words (§4.6, C8): the direct aggregate query
over an owner's stored orders — total order count, exact sum of order
totals, count of status `pending`, count of status `delivered`. -/
def specStatsQuery (uid : Int) (orders : List Order) : Stats :=
  let mine := orders.filter (fun o => o.user_id == uid)
  { total_orders := mine.length,
    total_spent := (mine.map (fun o => o.total_amount)).sum,
    pending_orders := (mine.filter (fun o => o.status == "pending")).length,
    completed_orders :=
      (mine.filter (fun o => o.status == "delivered")).length }

/-- The HTTP result `create_order` returns for each per-item failure. -/
def itemErrorResult : ItemError → CreateResult
  | .notFound pid => .notFound pid
  | .insufficientStock pid => .insufficientStock pid
  | .unavailable => .unavailable
  | .keyError => .serverError

/-! ## Concrete fixtures (used by witnesses and counterexamples) -/

/-- A fresh service state: empty store, empty cache. -/
def emptyState : ServiceState :=
  { orders := [], cache := fun _ => none, nextId := 1 }

/-- An order of user 7 already in the terminal status `delivered`. -/
def orderDelivered : Order :=
  { id := 1, user_id := 7, products := [], total_amount := 0,
    status := "delivered" }

def stateDelivered : ServiceState :=
  { orders := [orderDelivered], cache := fun _ => none, nextId := 2 }

/-- An order of user 4 in status `shipped`. -/
def orderShipped : Order :=
  { id := 1, user_id := 4, products := [], total_amount := 0,
    status := "shipped" }

def stateShipped : ServiceState :=
  { orders := [orderShipped], cache := fun _ => none, nextId := 2 }

/-- An order owned by user 1 (used to probe requests from user 2). -/
def orderOfA : Order :=
  { id := 1, user_id := 1, products := [], total_amount := 0,
    status := "pending" }

def stateA : ServiceState :=
  { orders := [orderOfA], cache := fun _ => none, nextId := 2 }

/-- Catalog answering every id with a 200 reply: price 29.99, stock 100. -/
def catA : Int → CatalogResult :=
  fun _ => .resp 200 { name := "Test Product", price := 2999/100, stock := 100 }

/-- Request for two units of item 1 (body `user_id` absent: it is
overridden anyway). -/
def reqA : RawOrder :=
  { user_id := .missing, products := .plist [⟨some 1, some ⟨true, 2⟩⟩] }

/-- The order `create_order` builds from `reqA` against `catA`. -/
def oA : Order :=
  { id := 1, user_id := 1,
    products := [{ product_id := 1, name := "Test Product",
                   price := 2999/100, quantity := 2, subtotal := 5998/100 }],
    total_amount := 5998/100, status := "pending" }

/-- Catalog answering every id with an HTTP 500 reply. -/
def cat500 : Int → CatalogResult :=
  fun _ => .resp 500 { name := "X", price := 10, stock := 100 }

def req500 : RawOrder :=
  { user_id := .missing, products := .plist [⟨some 1, some ⟨true, 1⟩⟩] }

/-- Catalog that 404s id 5 and answers 200 for everything else. -/
def cat404 : Int → CatalogResult :=
  fun pid => if pid = 5 then .resp 404 { name := "", price := 0, stock := 0 }
             else .resp 200 { name := "X", price := 10, stock := 100 }

def req404 : RawOrder :=
  { user_id := .missing,
    products := .plist [⟨some 1, some ⟨true, 1⟩⟩, ⟨some 5, some ⟨true, 1⟩⟩] }

/-- Catalog with stock 10 for every id. -/
def catW : Int → CatalogResult :=
  fun _ => .resp 200 { name := "W", price := 5, stock := 10 }

/-- Two stored orders of user 1 (one pending, one delivered). -/
def orderW1 : Order :=
  { id := 1, user_id := 1, products := [], total_amount := 5998/100,
    status := "pending" }

def orderW2 : Order :=
  { id := 2, user_id := 1, products := [], total_amount := 1234/100,
    status := "delivered" }

def stateW : ServiceState :=
  { orders := [orderW1, orderW2], cache := fun _ => none, nextId := 3 }

/-- A request violating several validation rules at once. -/
def d9 : RawOrder :=
  { user_id := .missing,
    products := .plist [⟨none, none⟩, ⟨some 1, some ⟨false, 0⟩⟩] }

/-! ## Arithmetic helper lemmas -/

theorem isCents_num_eq (q : ℚ) (h : isCents q) :
    (((100 * q).num : ℚ)) = 100 * q := by
  unfold isCents at h
  conv_rhs => rw [← Rat.num_div_den (100 * q)]
  rw [h]
  simp

theorem round2_eq_self (q : ℚ) (h : isCents q) : round2 q = q := by
  unfold round2
  rw [← isCents_num_eq q h, round_intCast]
  have h100 : (100 : ℚ) ≠ 0 := by norm_num
  field_simp [isCents_num_eq q h]

theorem isCents_zero : isCents 0 := by unfold isCents; norm_num

theorem isCents_add (a b : ℚ) (ha : isCents a) (hb : isCents b) :
    isCents (a + b) := by
  unfold isCents
  have h : 100 * (a + b) = (((100 * a).num + (100 * b).num : ℤ) : ℚ) := by
    push_cast [isCents_num_eq a ha, isCents_num_eq b hb]
    ring
  rw [h, Rat.den_intCast]

theorem isCents_sum (l : List ℚ) (h : ∀ q ∈ l, isCents q) :
    isCents l.sum := by
  induction l with
  | nil => simpa using isCents_zero
  | cons a t ih =>
      rw [List.sum_cons]
      exact isCents_add a t.sum (h a (List.mem_cons_self a t))
        (ih (fun q hq => h q (List.mem_cons_of_mem a hq)))

/-! ## Structural helper lemmas -/

theorem processItems_nil (catalog : Int → CatalogResult) :
    processItems catalog [] = .ok ([], 0) := rfl

theorem processItems_cons_error (catalog : Int → CatalogResult)
    (item : RawItem) (rest : List RawItem) (e : ItemError)
    (h : itemCheck catalog item = some e) :
    processItems catalog (item :: rest) = .error e := by
  obtain ⟨opid, oqty⟩ := item
  cases opid with
  | none =>
      simp [itemCheck] at h
      subst h
      simp [processItems]
  | some pid =>
    cases oqty with
    | none =>
        simp [itemCheck] at h
        subst h
        simp [processItems]
    | some q =>
      simp only [itemCheck] at h
      simp only [processItems]
      revert h
      cases hc : catalog pid with
      | exn =>
          intro h
          simp only [Option.some.injEq] at h
          subst h
          rfl
      | resp code p =>
          intro h
          by_cases h200 : code = 200
          · simp [h200] at h ⊢
            obtain ⟨hstock, rfl⟩ := h
            rw [if_pos hstock]
          · simp [h200] at h ⊢
            subst h
            rfl

theorem processItems_cons_of_none (catalog : Int → CatalogResult)
    (item : RawItem) (rest : List RawItem)
    (h : itemCheck catalog item = none) :
    ∃ pid q p, item.product_id = some pid ∧ item.quantity = some q ∧
      catalog pid = .resp 200 p ∧ ¬ p.stock < q.val ∧
      processItems catalog (item :: rest) =
        (match processItems catalog rest with
         | .error e => .error e
         | .ok (ls, t) =>
             .ok ({ product_id := pid, name := p.name, price := p.price,
                    quantity := q.val,
                    subtotal := p.price * (q.val : ℚ) } :: ls,
                  p.price * (q.val : ℚ) + t)) := by
  obtain ⟨opid, oqty⟩ := item
  cases opid with
  | none => simp [itemCheck] at h
  | some pid =>
    cases oqty with
    | none => simp [itemCheck] at h
    | some q =>
      simp only [itemCheck] at h
      revert h
      cases hc : catalog pid with
      | exn => intro h; simp at h
      | resp code p =>
        intro h
        by_cases h200 : code = 200
        · by_cases hstock : p.stock < q.val
          · simp [h200, hstock] at h
          · refine ⟨pid, q, p, rfl, rfl, h200 ▸ hc, hstock, ?_⟩
            simp only [processItems, hc]
            simp [h200, hstock]
        · simp [h200] at h

theorem processItems_first_error (catalog : Int → CatalogResult)
    (pre : List RawItem) (item : RawItem) (post : List RawItem)
    (e : ItemError)
    (hpre : ∀ it ∈ pre, itemCheck catalog it = none)
    (hit : itemCheck catalog item = some e) :
    processItems catalog (pre ++ item :: post) = .error e := by
  induction pre with
  | nil => simpa using processItems_cons_error catalog item post e hit
  | cons a pre ih =>
      obtain ⟨pid, q, p, _, _, _, _, heq⟩ :=
        processItems_cons_of_none catalog a (pre ++ item :: post)
          (hpre a (List.mem_cons_self a pre))
      rw [List.cons_append, heq,
        ih (fun it hmem => hpre it (List.mem_cons_of_mem a hmem))]

theorem processItems_ok_of_checks (catalog : Int → CatalogResult)
    (items : List RawItem)
    (h : ∀ it ∈ items, itemCheck catalog it = none) :
    ∃ ls t, processItems catalog items = .ok (ls, t) := by
  induction items with
  | nil => exact ⟨[], 0, rfl⟩
  | cons item rest ih =>
      obtain ⟨ls, t, hrest⟩ :=
        ih (fun it hmem => h it (List.mem_cons_of_mem item hmem))
      obtain ⟨pid, q, p, _, _, _, _, heq⟩ :=
        processItems_cons_of_none catalog item rest
          (h item (List.mem_cons_self item rest))
      rw [heq, hrest]
      exact ⟨_, _, rfl⟩

theorem processItems_ok_total (catalog : Int → CatalogResult)
    (items : List RawItem) :
    ∀ ls t, processItems catalog items = .ok (ls, t) →
      t = (ls.map (fun li => li.price * (li.quantity : ℚ))).sum ∧
      ∀ li ∈ ls, li.subtotal = li.price * (li.quantity : ℚ) := by
  induction items with
  | nil =>
      intro ls t h
      rw [processItems_nil] at h
      simp only [Except.ok.injEq, Prod.mk.injEq] at h
      obtain ⟨rfl, rfl⟩ := h
      simp
  | cons item rest ih =>
      intro ls t h
      rcases hchk : itemCheck catalog item with _ | e
      · obtain ⟨pid, q, p, _, _, _, _, heq⟩ :=
          processItems_cons_of_none catalog item rest hchk
        rw [heq] at h
        rcases hrest : processItems catalog rest with e | ⟨ls0, t0⟩
        · rw [hrest] at h; simp at h
        · rw [hrest] at h
          simp only [Except.ok.injEq, Prod.mk.injEq] at h
          obtain ⟨rfl, rfl⟩ := h
          obtain ⟨ht0, hsub⟩ := ih ls0 t0 hrest
          constructor
          · simp [ht0]
          · intro li hli
            rcases List.mem_cons.mp hli with hli | hli
            · subst hli; rfl
            · exact hsub li hli
      · rw [processItems_cons_error catalog item rest e hchk] at h
        simp at h

theorem findOrder_eq_none (oid : Nat) (uid : Int) (orders : List Order)
    (h : ∀ o ∈ orders, o.id = oid → o.user_id ≠ uid) :
    findOrder oid uid orders = none := by
  unfold findOrder
  rw [List.find?_eq_none]
  intro o ho
  simp only [Bool.and_eq_true, beq_iff_eq, not_and]
  exact fun hid => h o ho hid

theorem findOrder_updateFirst (oid : Nat) (uid : Int)
    (orders : List Order) (order : Order) (f : Order → Order)
    (hf : ∀ o, (f o).id = o.id ∧ (f o).user_id = o.user_id)
    (h : findOrder oid uid orders = some order) :
    findOrder oid uid
      (updateFirst (fun o => o.id == oid && o.user_id == uid) f orders) =
      some (f order) := by
  induction orders with
  | nil => simp [findOrder] at h
  | cons a orders ih =>
      unfold findOrder at h ⊢
      unfold updateFirst
      by_cases hp : (a.id == oid && a.user_id == uid) = true
      · simp only [List.find?_cons, hp] at h
        obtain rfl : a = order := by simpa using h
        have hp' : ((f a).id == oid && (f a).user_id == uid) = true := by
          rw [(hf a).1, (hf a).2]; exact hp
        rw [if_pos hp]
        simp only [List.find?_cons, hp']
      · have hp0 : (a.id == oid && a.user_id == uid) = false := by
          simpa using hp
        simp only [List.find?_cons, hp0] at h
        rw [if_neg hp]
        unfold findOrder at ih
        simp only [List.find?_cons, hp0]
        exact ih h

theorem itemErrors_eq_nil_iff (idx : Nat) (p : RawItem) :
    itemErrors idx p = [] ↔ specItemOk p = true := by
  unfold itemErrors specItemOk
  cases hp : p.product_id with
  | none => simp
  | some pid =>
    cases hq : p.quantity with
    | none => simp
    | some q =>
      by_cases hi : q.isInt
      · by_cases hv : q.val ≤ 0
        · simp [hi, hv, Int.not_lt.mpr hv]
        · simp [hi, hv, Int.not_le.mp hv]
      · simp [hi]

theorem itemsErrors_eq_nil_iff (l : List RawItem) :
    ∀ k, itemsErrors k l = [] ↔ ∀ p ∈ l, specItemOk p = true := by
  induction l with
  | nil => intro k; simp [itemsErrors]
  | cons a l ih =>
      intro k
      unfold itemsErrors
      rw [List.append_eq_nil]
      rw [itemErrors_eq_nil_iff, ih (k + 1)]
      constructor
      · rintro ⟨h1, h2⟩ p hp
        rcases List.mem_cons.mp hp with rfl | hp
        · exact h1
        · exact h2 p hp
      · intro h
        exact ⟨h a (List.mem_cons_self a l),
               fun p hp => h p (List.mem_cons_of_mem a hp)⟩

theorem mem_itemsErrors (msg : String) (l : List RawItem) :
    ∀ k i p, l.get? i = some p → msg ∈ itemErrors (k + i) p →
      msg ∈ itemsErrors k l := by
  induction l with
  | nil => intro k i p h; simp at h
  | cons a l ih =>
      intro k i p h hm
      unfold itemsErrors
      rw [List.mem_append]
      cases i with
      | zero =>
          obtain rfl : a = p := by simpa using h
          exact Or.inl hm
      | succ i =>
          refine Or.inr (ih (k + 1) i p (by simpa using h) ?_)
          have : k + 1 + i = k + (i + 1) := by omega
          rw [this]
          exact hm

theorem createFromItems_ok (catalog : Int → CatalogResult) (uid : Int)
    (st : ServiceState) (items : List RawItem) (ls : List LineItem)
    (total : ℚ) (hpi : processItems catalog items = .ok (ls, total)) :
    createFromItems catalog uid st items =
      (.created { id := st.nextId, user_id := uid, products := ls,
                  total_amount := round2 total, status := "pending" },
       { orders := st.orders ++
           [{ id := st.nextId, user_id := uid, products := ls,
              total_amount := round2 total, status := "pending" }],
         cache := invalidateOwner uid st.cache,
         nextId := st.nextId + 1 }) := by
  unfold createFromItems
  rw [hpi]

theorem createFromItems_error (catalog : Int → CatalogResult) (uid : Int)
    (st : ServiceState) (items : List RawItem) (e : ItemError)
    (hpi : processItems catalog items = .error e) :
    createFromItems catalog uid st items = (itemErrorResult e, st) := by
  unfold createFromItems
  rw [hpi]
  cases e <;> rfl

theorem create_order_valid_plist (catalog : Int → CatalogResult)
    (uid : Int) (du : RawUser) (items : List RawItem) (st : ServiceState)
    (hv : validate_order
        { user_id := RawUser.given true uid, products := .plist items } = []) :
    create_order catalog uid ⟨du, .plist items⟩ st =
      createFromItems catalog uid st items := by
  simp only [create_order]
  rw [if_pos hv]

theorem create_order_created (catalog : Int → CatalogResult) (uid : Int)
    (d : RawOrder) (st : ServiceState) (o : Order)
    (h : (create_order catalog uid d st).1 = .created o) :
    ∃ items ls total,
      d.products = .plist items ∧
      validate_order { d with user_id := RawUser.given true uid } = [] ∧
      processItems catalog items = .ok (ls, total) ∧
      o = { id := st.nextId, user_id := uid, products := ls,
            total_amount := round2 total, status := "pending" } ∧
      (create_order catalog uid d st).2 =
        { orders := st.orders ++ [o],
          cache := invalidateOwner uid st.cache,
          nextId := st.nextId + 1 } := by
  obtain ⟨du, dp⟩ := d
  by_cases hv : validate_order
      { user_id := RawUser.given true uid, products := dp } = []
  · cases dp with
    | missing => simp [validate_order, productsErrors] at hv
    | notList => simp [validate_order, productsErrors] at hv
    | plist items =>
        rw [create_order_valid_plist catalog uid du items st hv] at h ⊢
        revert h
        rcases hpi : processItems catalog items with e | ⟨ls, total⟩
        · intro h
          rw [createFromItems_error catalog uid st items e hpi] at h
          cases e <;> simp [itemErrorResult] at h
        · intro h
          rw [createFromItems_ok catalog uid st items ls total hpi] at h ⊢
          obtain rfl : o = _ := (CreateResult.created.inj h).symm
          exact ⟨items, ls, total, rfl, hv, hpi, rfl, rfl⟩
  · simp only [create_order] at h
    rw [if_neg hv] at h
    simp at h

/-! ## C1: counterexample fixture facts and claim theorems follow -/

theorem computeStats_append_own (uid : Int) (orders : List Order)
    (o : Order) (h : o.user_id = uid) :
    (computeStats uid (orders ++ [o])).total_orders =
      (computeStats uid orders).total_orders + 1 := by
  unfold computeStats
  simp [List.filter_append, h]

/-! ## Claim theorems -/

/-- C1 (counterexample): a persisted order in the terminal status
`delivered` is moved back to `pending` by the status-update operation —
the call succeeds and the stored status changes, instead of failing with
an invalid-transition error with the status unchanged, as the claim
requires for every transition out of a terminal state. -/
theorem update_allows_leaving_delivered :
    (update_order_status 7 1 (some "pending") stateDelivered).1 =
      .ok { orderDelivered with status := "pending" } ∧
    (update_order_status 7 1 (some "pending") stateDelivered).2.orders =
      [{ orderDelivered with status := "pending" }] := by
  constructor <;> rfl

/-- C1 (amended): the status-update operation only checks that the
requested status is one of the five enumerated statuses — any such target
is accepted from any current status, including out of the terminal
statuses `delivered` and `cancelled`; a target outside the enumerated set
fails with an invalid-status error and leaves the state unchanged.  Only
the cancel operation enforces a precondition on the current status: it
succeeds iff the current status is `pending` or `processing`, and
otherwise fails with a conflict error and leaves the state unchanged. -/
theorem update_status_checks_membership_only (uid : Int) (oid : Nat)
    (s : String) (st : ServiceState) (order : Order)
    (hfind : findOrder oid uid st.orders = some order) :
    (s ∈ valid_statuses →
       (update_order_status uid oid (some s) st).1 =
         .ok { order with status := s } ∧
       findOrder oid uid
           (update_order_status uid oid (some s) st).2.orders =
         some { order with status := s }) ∧
    (s ∉ valid_statuses →
       update_order_status uid oid (some s) st = (.invalidStatus, st)) ∧
    (order.status ∈ (["pending", "processing"] : List String) →
       (cancel_order uid oid st).1 = .ok { order with status := "cancelled" }) ∧
    (order.status ∉ (["pending", "processing"] : List String) →
       cancel_order uid oid st = (.conflict, st)) := by
  refine ⟨?_, ?_, ?_, ?_⟩
  · intro hmem
    simp only [update_order_status, hfind]
    rw [if_neg (not_not_intro hmem)]
    exact ⟨rfl, findOrder_updateFirst oid uid st.orders order _
      (fun o => ⟨rfl, rfl⟩) hfind⟩
  · intro hnmem
    simp only [update_order_status, hfind]
    rw [if_pos hnmem]
  · intro hmem
    simp only [cancel_order, hfind]
    rw [if_neg (not_not_intro hmem)]
  · intro hnmem
    simp only [cancel_order, hfind]
    rw [if_pos hnmem]

/-- C1 (amended, witness): user 7's delivered order accepts the target
`shipped`, while cancelling it fails with a conflict and changes
nothing. -/
theorem update_status_checks_membership_only_witness :
    (update_order_status 7 1 (some "shipped") stateDelivered).1 =
      .ok { orderDelivered with status := "shipped" } ∧
    cancel_order 7 1 stateDelivered = (.conflict, stateDelivered) := by
  have h := update_status_checks_membership_only 7 1 "shipped"
    stateDelivered orderDelivered rfl
  exact ⟨(h.1 (by decide)).1, h.2.2.2 (by decide)⟩

/-- C3: for an existing owned order, cancellation succeeds (persisting
status `cancelled`) iff the current status is `pending` or `processing`;
for every other current status it fails with a conflict result — a value
distinct from the not-found result — and the state is unchanged. -/
theorem cancel_iff_pending_or_processing (uid : Int) (oid : Nat)
    (st : ServiceState) (order : Order)
    (hfind : findOrder oid uid st.orders = some order) :
    ((order.status = "pending" ∨ order.status = "processing") →
       (cancel_order uid oid st).1 = .ok { order with status := "cancelled" } ∧
       findOrder oid uid (cancel_order uid oid st).2.orders =
         some { order with status := "cancelled" }) ∧
    (¬(order.status = "pending" ∨ order.status = "processing") →
       cancel_order uid oid st = (.conflict, st)) ∧
    (CancelResult.conflict ≠ CancelResult.notFound) := by
  refine ⟨?_, ?_, by simp⟩
  · intro hmem
    have hm : order.status ∈ (["pending", "processing"] : List String) := by
      rcases hmem with h | h <;> simp [h]
    simp only [cancel_order, hfind]
    rw [if_neg (not_not_intro hm)]
    exact ⟨rfl, findOrder_updateFirst oid uid st.orders order _
      (fun o => ⟨rfl, rfl⟩) hfind⟩
  · intro hnmem
    have hm : order.status ∉ (["pending", "processing"] : List String) := by
      simpa using hnmem
    simp only [cancel_order, hfind]
    rw [if_pos hm]

/-- C3 (witness): the spec scenario — an order in status `shipped` cannot
be cancelled: the call returns the conflict outcome and the stored status
remains `shipped`. -/
theorem cancel_iff_pending_or_processing_witness :
    cancel_order 4 1 stateShipped = (.conflict, stateShipped) ∧
    (cancel_order 4 1 stateShipped).2.orders = [orderShipped] := by
  have h := (cancel_iff_pending_or_processing 4 1 stateShipped
    orderShipped rfl).2.1 (by decide)
  exact ⟨h, by rw [h]; rfl⟩

/-- C5: if no order with the requested id in the store belongs to the
caller (the order does not exist, or belongs to another user), then get,
status-update and cancel all return the very same not-found outcome with
the state unchanged — so a non-owner cannot distinguish another user's
order from a non-existent one. -/
theorem non_owner_sees_not_found (st : ServiceState) (uidB : Int)
    (oid : Nat) (sReq : Option String)
    (h : ∀ o ∈ st.orders, o.id = oid → o.user_id ≠ uidB) :
    get_order uidB oid st = none ∧
    update_order_status uidB oid sReq st = (.notFound, st) ∧
    cancel_order uidB oid st = (.notFound, st) := by
  have hf := findOrder_eq_none oid uidB st.orders h
  refine ⟨hf, ?_, ?_⟩
  · simp only [update_order_status, hf]
  · simp only [cancel_order, hf]

/-- C5 (witness): user 2 requesting user 1's order gets exactly the
not-found outcomes on all three operations. -/
theorem non_owner_sees_not_found_witness :
    get_order 2 1 stateA = none ∧
    update_order_status 2 1 (some "shipped") stateA = (.notFound, stateA) ∧
    cancel_order 2 1 stateA = (.notFound, stateA) :=
  non_owner_sees_not_found stateA 2 1 (some "shipped") (by decide)

/-- C2: when validation passed and some line item is the first to fail
resolution (catalog error, transport failure, or insufficient stock),
order creation returns that item's error and the state — store, cache and
id counter — is exactly as before the request: no order record and no
partial line items are persisted. -/
theorem create_aborts_on_first_failure (catalog : Int → CatalogResult)
    (uid : Int) (d : RawOrder) (st : ServiceState) (pre : List RawItem)
    (item : RawItem) (post : List RawItem) (e : ItemError)
    (hv : validate_order { d with user_id := RawUser.given true uid } = [])
    (hp : d.products = .plist (pre ++ item :: post))
    (hpre : ∀ it ∈ pre, itemCheck catalog it = none)
    (hit : itemCheck catalog item = some e)
    (he : e ≠ .keyError) :
    create_order catalog uid d st = (itemErrorResult e, st) ∧
    (∀ o : Order, itemErrorResult e ≠ .created o) := by
  constructor
  · obtain ⟨du, dp⟩ := d
    have hp' : dp = .plist (pre ++ item :: post) := hp
    subst hp'
    rw [create_order_valid_plist catalog uid du _ st hv]
    rw [createFromItems_error catalog uid st _ e
      (processItems_first_error catalog pre item post e hpre hit)]
  · intro o
    cases e <;> simp [itemErrorResult]

/-- C2 (witness): the spec scenario — the catalog 404s item 5; creation
of a two-item order aborts with the item-5 not-found error after the
first item resolved, and the store stays empty. -/
theorem create_aborts_on_first_failure_witness :
    create_order cat404 3 req404 emptyState = (.notFound 5, emptyState) ∧
    (create_order cat404 3 req404 emptyState).2.orders = [] := by
  have h := create_aborts_on_first_failure cat404 3 req404 emptyState
    [⟨some 1, some ⟨true, 1⟩⟩] ⟨some 5, some ⟨true, 1⟩⟩ [] (.notFound 5)
    (by decide) rfl (by decide) (by decide) (by decide)
  exact ⟨h.1, by rw [h.1]; rfl⟩

/-- C4 (counterexample): the catalog replies HTTP 500 — a non-2xx reply
that is not a confirmed not-found — yet order creation reports the 404
not-found outcome for the item, not the 503 unavailable outcome the
claim requires. -/
theorem non404_catalog_error_yields_not_found :
    (create_order cat500 1 req500 emptyState).1 = .notFound 1 ∧
    (create_order cat500 1 req500 emptyState).1 ≠ .unavailable := by
  constructor <;> decide

/-- C4 (amended): per-item catalog outcome classification as
implemented — a transport failure (raised request exception) yields the
unavailable (503) outcome, and every HTTP reply whose status code differs
from 200 yields the not-found (404) outcome, whether or not the remote
confirmed the item's absence. -/
theorem catalog_error_classification (catalog : Int → CatalogResult)
    (pid : Int) (q : RawQty) (item : RawItem)
    (hp : item.product_id = some pid) (hq : item.quantity = some q) :
    (itemCheck catalog item = some .unavailable ↔ catalog pid = .exn) ∧
    (itemCheck catalog item = some (.notFound pid) ↔
       ∃ code p, catalog pid = .resp code p ∧ code ≠ 200) := by
  obtain ⟨opid, oqty⟩ := item
  obtain rfl : opid = some pid := hp
  obtain rfl : oqty = some q := hq
  simp only [itemCheck]
  cases hc : catalog pid with
  | exn => simp
  | resp code p =>
      by_cases h200 : code = 200
      · by_cases hstock : p.stock < q.val <;> simp [h200, hstock]
      · simp [h200]

/-- C4 (amended, witness): an HTTP 500 reply for item 1 classifies as the
not-found outcome. -/
theorem catalog_error_classification_witness :
    itemCheck cat500 ⟨some 1, some ⟨true, 1⟩⟩ = some (.notFound 1) :=
  (catalog_error_classification cat500 1 ⟨true, 1⟩
    ⟨some 1, some ⟨true, 1⟩⟩ rfl rfl).2.mpr
    ⟨500, { name := "X", price := 10, stock := 100 }, rfl, by decide⟩

/-- C6: every successfully created order has status `pending`, a total
equal to the 2-decimal rounding of the sum of unit price times quantity
over its line items, consistently priced line-item subtotals, and is
appended to the store. -/
theorem created_total_is_rounded_sum (catalog : Int → CatalogResult)
    (uid : Int) (d : RawOrder) (st : ServiceState) (o : Order)
    (h : (create_order catalog uid d st).1 = .created o) :
    o.total_amount =
      round2 ((o.products.map (fun li => li.price * (li.quantity : ℚ))).sum) ∧
    o.status = "pending" ∧
    (∀ li ∈ o.products, li.subtotal = li.price * (li.quantity : ℚ)) ∧
    (create_order catalog uid d st).2.orders = st.orders ++ [o] := by
  obtain ⟨items, ls, total, hdp, hv, hpi, ho, hst⟩ :=
    create_order_created catalog uid d st o h
  obtain ⟨htot, hsub⟩ := processItems_ok_total catalog items ls total hpi
  subst ho
  refine ⟨?_, rfl, hsub, by rw [hst]⟩
  dsimp only
  rw [htot]

/-- Evaluation: pricing the `reqA` item list against `catA`. -/
theorem processItems_evalA :
    processItems catA [⟨some 1, some ⟨true, 2⟩⟩] =
      .ok ([{ product_id := 1, name := "Test Product", price := 2999/100,
              quantity := 2, subtotal := 5998/100 }], 5998/100) := by
  simp [processItems, catA]
  norm_num

/-- Evaluation: creating `reqA` against `catA` yields exactly `oA`. -/
theorem create_evalA :
    (create_order catA 1 reqA emptyState).1 = .created oA := by
  have h1 : create_order catA 1 reqA emptyState =
      createFromItems catA 1 emptyState [⟨some 1, some ⟨true, 2⟩⟩] :=
    create_order_valid_plist catA 1 RawUser.missing _ emptyState (by decide)
  rw [h1, createFromItems_ok catA 1 emptyState _ _ _ processItems_evalA]
  simp only [oA, emptyState]
  norm_num [round2]

/-- C6 (witness): the spec scenario — price 29.99, quantity 2 gives a
created order with total 59.98 = round2 of the line sum and status
`pending`. -/
theorem created_total_is_rounded_sum_witness :
    oA.total_amount = 5998/100 ∧ oA.status = "pending" ∧
    oA.total_amount =
      round2 ((oA.products.map (fun li => li.price * (li.quantity : ℚ))).sum) := by
  have h := created_total_is_rounded_sum catA 1 reqA emptyState oA create_evalA
  exact ⟨rfl, h.2.1, h.1⟩

/-- C7: a successful order creation synchronously clears the owner's
stats-cache entry, so a getStats issued immediately afterwards recomputes
from the post-creation store and reports one more order than before the
creation (never the pre-creation counts); a successful status update
clears the owner's cache entry exactly when the destination status is
`delivered` or `cancelled`, leaving the cache untouched otherwise. -/
theorem creation_invalidates_stats_cache (catalog : Int → CatalogResult)
    (uid : Int) (d : RawOrder) (st : ServiceState) (now : Nat) (o : Order)
    (oid : Nat) (s : String) (order : Order) :
    ((create_order catalog uid d st).1 = .created o →
       (create_order catalog uid d st).2.cache uid = none ∧
       (get_order_stats now uid (create_order catalog uid d st).2).1 =
         computeStats uid ((create_order catalog uid d st).2.orders) ∧
       (get_order_stats now uid
           (create_order catalog uid d st).2).1.total_orders =
         (computeStats uid st.orders).total_orders + 1) ∧
    ((update_order_status uid oid (some s) st).1 = .ok order →
       (s ∈ (["delivered", "cancelled"] : List String) →
          (update_order_status uid oid (some s) st).2.cache =
            invalidateOwner uid st.cache) ∧
       (s ∉ (["delivered", "cancelled"] : List String) →
          (update_order_status uid oid (some s) st).2.cache = st.cache)) := by
  constructor
  · intro h
    obtain ⟨items, ls, total, hdp, hv, hpi, ho, hst⟩ :=
      create_order_created catalog uid d st o h
    have hcache : (create_order catalog uid d st).2.cache uid = none := by
      rw [hst]; simp [invalidateOwner]
    refine ⟨hcache, ?_, ?_⟩
    · unfold get_order_stats
      rw [hcache]
    · unfold get_order_stats
      rw [hcache]
      show (computeStats uid ((create_order catalog uid d st).2.orders)).total_orders = _
      rw [hst]
      subst ho
      exact computeStats_append_own uid st.orders _ rfl
  · intro h
    cases hf : findOrder oid uid st.orders with
    | none => simp [update_order_status, hf] at h
    | some ord =>
        by_cases hs : s ∈ valid_statuses
        · constructor
          · intro hmem
            simp only [update_order_status, hf]
            rw [if_neg (not_not_intro hs)]
            rw [if_pos hmem]
          · intro hnm
            simp only [update_order_status, hf]
            rw [if_neg (not_not_intro hs)]
            rw [if_neg hnm]
        · simp [update_order_status, hf, hs] at h

/-- C7 (witness): after creating `reqA` for user 1 the cache key of user
1 is gone; updating user 7's delivered order to `pending` (not a terminal
destination) leaves the cache untouched. -/
theorem creation_invalidates_stats_cache_witness :
    (create_order catA 1 reqA emptyState).2.cache 1 = none ∧
    (update_order_status 7 1 (some "pending") stateDelivered).2.cache =
      stateDelivered.cache := by
  refine ⟨((creation_invalidates_stats_cache catA 1 reqA emptyState 0 oA
    1 "x" oA).1 create_evalA).1, ?_⟩
  have h := (creation_invalidates_stats_cache catA 7 reqA stateDelivered 0
    oA 1 "pending" { orderDelivered with status := "pending" }).2
  exact (h rfl).2 (by decide)

theorem computeStats_eq_spec (uid : Int) (orders : List Order)
    (h : ∀ o ∈ orders, isCents o.total_amount) :
    computeStats uid orders = specStatsQuery uid orders := by
  unfold computeStats specStatsQuery
  simp only [Stats.mk.injEq, eq_self_iff_true, true_and, and_true]
  apply round2_eq_self
  apply isCents_sum
  intro q hq
  simp only [List.mem_map] at hq
  obtain ⟨o, ho, rfl⟩ := hq
  exact h o (List.mem_of_mem_filter ho)

/-- C8: a getStats call that misses the cache (no entry, or the entry's
TTL has elapsed) returns exactly the direct aggregate query over that
owner's stored orders — order count, sum of totals, pending count,
delivered count — and stores that snapshot under the owner's key with
expiry 300 seconds from now, leaving the store unchanged.  (The stored
totals are whole cents, as creation always rounds to 2 decimals, hence
the hypothesis.) -/
theorem stats_miss_recomputes_and_caches (now : Nat) (uid : Int)
    (st : ServiceState) (hmiss : cacheMiss now uid st)
    (hcents : ∀ o ∈ st.orders, isCents o.total_amount) :
    (get_order_stats now uid st).1 = specStatsQuery uid st.orders ∧
    (get_order_stats now uid st).2.cache uid =
      some ⟨specStatsQuery uid st.orders, now + 300⟩ ∧
    (get_order_stats now uid st).2.orders = st.orders := by
  have hcs := computeStats_eq_spec uid st.orders hcents
  unfold get_order_stats
  unfold cacheMiss at hmiss
  revert hmiss
  cases st.cache uid with
  | none =>
      intro _
      refine ⟨hcs, ?_, rfl⟩
      dsimp only
      rw [if_pos rfl, hcs]
  | some e =>
      intro hmiss
      dsimp only
      rw [if_neg (by omega)]
      refine ⟨hcs, ?_, rfl⟩
      dsimp only
      rw [if_pos rfl, hcs]

/-- C8 (witness): user 1 has two stored orders (59.98 pending, 12.34
delivered); a getStats at time 0 on an empty cache returns the direct
aggregates and caches them with expiry 300. -/
theorem stats_miss_recomputes_and_caches_witness :
    (get_order_stats 0 1 stateW).1 = specStatsQuery 1 stateW.orders ∧
    (get_order_stats 0 1 stateW).2.cache 1 =
      some ⟨specStatsQuery 1 stateW.orders, 0 + 300⟩ := by
  have h := stats_miss_recomputes_and_caches 0 1 stateW (by decide)
    (by
      intro o ho
      simp only [stateW, List.mem_cons, List.mem_singleton,
        List.not_mem_nil, or_false] at ho
      rcases ho with rfl | rfl <;> norm_num [orderW1, orderW2, isCents])
  exact ⟨h.1, h.2.1⟩

/-- C9: the validator's returned list is empty iff the request satisfies
every rule (owner id resolves to an integer; item list present and
non-empty; every item has an identifier and a strictly positive integer
quantity), and every violated rule contributes its message to the
returned list — the validator collects all violations instead of
stopping at the first. -/
theorem validator_collects_all_violations (d : RawOrder) :
    (validate_order d = [] ↔ specRequestValid d = true) ∧
    (d.user_id = .missing → "User ID is required" ∈ validate_order d) ∧
    (∀ v : Int, d.user_id = .given false v →
       "User ID must be a valid integer" ∈ validate_order d) ∧
    (d.products = .missing → "Products are required" ∈ validate_order d) ∧
    ((d.products = .notList ∨ d.products = .plist []) →
       "Products must be a non-empty list" ∈ validate_order d) ∧
    (∀ items i p, d.products = .plist items → items.get? i = some p →
       (p.product_id = none →
          s!"Product {i}: product_id is required" ∈ validate_order d) ∧
       (p.quantity = none →
          s!"Product {i}: quantity is required" ∈ validate_order d) ∧
       (∀ q, p.quantity = some q → (q.isInt = false ∨ q.val ≤ 0) →
          s!"Product {i}: quantity must be a positive integer" ∈
            validate_order d)) := by
  obtain ⟨du, dp⟩ := d
  refine ⟨?_, ?_, ?_, ?_, ?_, ?_⟩
  · cases du with
    | missing => simp [validate_order, specRequestValid, userErrors]
    | given intable v =>
        cases intable with
        | false => simp [validate_order, specRequestValid, userErrors]
        | true =>
            cases dp with
            | missing =>
                simp [validate_order, specRequestValid, userErrors,
                  productsErrors]
            | notList =>
                simp [validate_order, specRequestValid, userErrors,
                  productsErrors]
            | plist l =>
                cases l with
                | nil =>
                    simp [validate_order, specRequestValid, userErrors,
                      productsErrors]
                | cons a l' =>
                    simp [validate_order, specRequestValid, userErrors,
                      productsErrors, itemsErrors_eq_nil_iff,
                      List.all_eq_true]
  · intro hmiss
    obtain rfl : du = .missing := hmiss
    simp [validate_order, userErrors]
  · intro v hv
    obtain rfl : du = .given false v := hv
    simp [validate_order, userErrors]
  · intro hmiss
    obtain rfl : dp = .missing := hmiss
    simp [validate_order, productsErrors]
  · intro hcase
    have : dp = .notList ∨ dp = .plist [] := hcase
    rcases this with rfl | rfl <;> simp [validate_order, productsErrors]
  · intro items i p hdp hget
    obtain rfl : dp = .plist items := hdp
    cases items with
    | nil => simp at hget
    | cons a l =>
        have hmem : ∀ msg, msg ∈ itemErrors i p →
            msg ∈ validate_order ⟨du, .plist (a :: l)⟩ := by
          intro msg hm
          unfold validate_order
          refine List.mem_append_right _ ?_
          show msg ∈ productsErrors (.plist (a :: l))
          unfold productsErrors
          exact mem_itemsErrors msg (a :: l) 0 i p hget (by simpa using hm)
        refine ⟨?_, ?_, ?_⟩
        · intro hpid
          refine hmem _ ?_
          unfold itemErrors
          rw [hpid]
          simp
        · intro hq
          refine hmem _ ?_
          unfold itemErrors
          rw [hq]
          simp
        · intro q hq hbad
          refine hmem _ ?_
          have hcond : (!q.isInt || decide (q.val ≤ 0)) = true := by
            rcases hbad with h | h <;> simp [h]
          unfold itemErrors
          rw [hq]
          simp [hcond]

/-- C9 (witness): a request missing the owner id whose first item lacks
both fields and whose second item has a non-integer quantity receives all
four corresponding messages in one validation pass, and the error list is
non-empty. -/
theorem validator_collects_all_violations_witness :
    ("User ID is required" ∈ validate_order d9) ∧
    ("Product 0: product_id is required" ∈ validate_order d9) ∧
    ("Product 0: quantity is required" ∈ validate_order d9) ∧
    ("Product 1: quantity must be a positive integer" ∈ validate_order d9) ∧
    validate_order d9 ≠ [] := by
  have h := validator_collects_all_violations d9
  refine ⟨h.2.1 rfl, ?_, ?_, ?_, ?_⟩
  · exact (h.2.2.2.2.2 _ 0 ⟨none, none⟩ rfl rfl).1 rfl
  · exact (h.2.2.2.2.2 _ 0 ⟨none, none⟩ rfl rfl).2.1 rfl
  · exact (h.2.2.2.2.2 _ 1 ⟨some 1, some ⟨false, 0⟩⟩ rfl rfl).2.2
      ⟨false, 0⟩ rfl (Or.inl rfl)
  · intro hnil
    exact absurd (h.1.mp hnil) (by decide)

/-- C10: the stock-sufficiency check is applied to each line item
independently against the catalog's reported stock at its own lookup
(stock is never decremented during the flow): whenever every individual
line item passes validation and its own stock check, the whole order is
accepted — even when several line items reference the same catalog item
and their summed quantity exceeds that item's stock. -/
theorem stock_checked_per_item (catalog : Int → CatalogResult)
    (uid : Int) (st : ServiceState) (du : RawUser) (items : List RawItem)
    (hne : items ≠ [])
    (hok : ∀ it ∈ items, specItemOk it = true ∧ itemCheck catalog it = none) :
    ∃ o st', create_order catalog uid ⟨du, .plist items⟩ st =
      (.created o, st') := by
  have hv : validate_order
      { user_id := RawUser.given true uid,
        products := RawProducts.plist items } = [] := by
    unfold validate_order userErrors
    cases items with
    | nil => exact absurd rfl hne
    | cons a l =>
        show ([] ++ productsErrors (.plist (a :: l))) = []
        unfold productsErrors
        rw [List.nil_append, itemsErrors_eq_nil_iff (a :: l) 0]
        intro p hp
        exact (hok p hp).1
  obtain ⟨ls, total, hpi⟩ := processItems_ok_of_checks catalog items
    (fun it hmem => (hok it hmem).2)
  exact ⟨_, _, by
    rw [create_order_valid_plist catalog uid du items st hv,
      createFromItems_ok catalog uid st items ls total hpi]⟩

/-- C10 (witness): stock 10, two line items of quantity 6 for the same
catalog item — summed demand 12 exceeds the stock — yet the order is
accepted, each item passing its own check. -/
theorem stock_checked_per_item_witness :
    ((6 : Int) + 6 > 10) ∧
    ∃ o st', create_order catW 1
      ⟨.missing,
       .plist [⟨some 1, some ⟨true, 6⟩⟩, ⟨some 1, some ⟨true, 6⟩⟩]⟩
      emptyState = (.created o, st') :=
  ⟨by decide, stock_checked_per_item catW 1 emptyState .missing _
    (by decide) (by decide)⟩

end OrderService
